import Mathlib

/-!
Shallow embedding of `src/data_analyzer.py` (class `DataAnalyzer`).

Modelling choices:
* Numeric values are modelled as rationals (`ℚ`); all arithmetic in the
  source (sum, mean via true division, median averaging) is exact on the
  inputs the spec discusses, so `ℚ` is a faithful model of the numeric
  behaviour.
* Python's built-in `sorted` is modelled by `List.insertionSort (· ≤ ·)`,
  a stable comparison sort; stability is irrelevant for values compared
  by `≤` on `ℚ`.
* `print` diagnostics are modelled as a list of emitted message strings
  returned alongside each operation's result.
* Python list indexing `xs[i]` (always in bounds where the source uses
  it) is modelled by `List.getD i 0`.
* The dynamic `isinstance(new_data, list)` check is modelled over a small
  universe `PyValue` of Python runtime values: lists of numbers, tuples,
  ranges, ints and strings; only the `list` constructor passes the check.
-/

/-- The statistics dictionary `self._stats` built by `DataAnalyzer.process`
(keys `count`, `sum`, `mean`, `min`, `max`, `median`). -/
structure StatisticsSnapshot where
  count : Nat
  sum : ℚ
  mean : ℚ
  min : ℚ
  max : ℚ
  median : ℚ
  deriving DecidableEq

/-- The state of a `DataAnalyzer` object: `self.data`, `self.name`,
`self.processed`, `self._stats`. -/
structure DataAnalyzer where
  data : List ℚ
  name : String
  processed : Bool
  stats : Option StatisticsSnapshot
  deriving DecidableEq

/-- A small universe of Python runtime values, enough to model the
`isinstance(new_data, list)` check in `DataAnalyzer.add_data`. -/
inductive PyValue where
  | list (xs : List ℚ)
  | tuple (xs : List ℚ)
  | range (lo hi : Int)
  | int (n : Int)
  | str (s : String)
  deriving DecidableEq

/-- `isinstance(v, list)` on the modelled value universe. -/
def PyValue.isList : PyValue → Bool
  | .list _ => true
  | _ => false

/-- `DataAnalyzer.__init__(data, name)`: stores the data and name, with
`processed = False` and `_stats = None`. -/
def DataAnalyzer.init (data : List ℚ) (name : String) : DataAnalyzer :=
  { data := data, name := name, processed := false, stats := none }

/-- Python `sum(data)`: left fold of `+` starting at `0`. -/
def listSum (l : List ℚ) : ℚ := l.foldl (fun a b => a + b) 0

/-- Python `min(data)` on a non-empty list (junk value `0` on `[]`,
where the source never calls it). -/
def pyMin : List ℚ → ℚ
  | [] => 0
  | x :: xs => xs.foldl min x

/-- Python `max(data)` on a non-empty list (junk value `0` on `[]`,
where the source never calls it). -/
def pyMax : List ℚ → ℚ
  | [] => 0
  | x :: xs => xs.foldl max x

/-- The median computation of `DataAnalyzer.process` (lines 42-46),
abstracted over the sorted copy `sorted_data` and `n = len(sorted_data)`:
if `n` is even, the average of the entries at positions `n/2 - 1` and
`n/2`; if odd, the entry at position `n/2`. -/
def medianOfSorted (sorted : List ℚ) (n : Nat) : ℚ :=
  if n % 2 = 0 then (sorted.getD (n / 2 - 1) 0 + sorted.getD (n / 2) 0) / 2
  else sorted.getD (n / 2) 0

/-- The statistics dictionary `DataAnalyzer.process` builds from
`self.data` on the non-empty path (lines 32-46). -/
def statsOf (d : List ℚ) : StatisticsSnapshot :=
  let sorted := List.insertionSort (fun a b => a ≤ b) d
  let n := d.length
  { count := n
    sum := listSum d
    mean := listSum d / (n : ℚ)
    min := pyMin d
    max := pyMax d
    median := medianOfSorted sorted n }

/-- `DataAnalyzer.process` (lines 25-49): on empty data, prints
"No data to process" and returns `False` leaving state untouched;
otherwise stores the statistics dictionary, sets `processed = True`
and returns `True`. Result: (new state, return value, printed lines). -/
def process (a : DataAnalyzer) : DataAnalyzer × Bool × List String :=
  if a.data = [] then
    (a, false, ["No data to process"])
  else
    ({ a with stats := some (statsOf a.data), processed := true }, true, [])

/-- The diagnostic printed by `DataAnalyzer.get_statistics` when the data
has not been processed. -/
def notProcessedMsg : String := "Data has not been processed yet. Call process() first."

/-- `DataAnalyzer.get_statistics` (lines 51-61): returns `None` plus a
diagnostic when `processed` is false, otherwise returns `self._stats`.
The state is not mutated. -/
def get_statistics (a : DataAnalyzer) : Option StatisticsSnapshot × List String :=
  if a.processed then (a.stats, []) else (none, [notProcessedMsg])

/-- `DataAnalyzer.add_data` (lines 63-79): rejects any non-list argument
with a diagnostic and `False`, leaving state unchanged; for a list it
extends `self.data`, resets `processed` to `False` and returns `True`.
Note that `self._stats` is not touched on either path. -/
def add_data (a : DataAnalyzer) (v : PyValue) : DataAnalyzer × Bool × List String :=
  match v with
  | .list xs => ({ a with data := a.data ++ xs, processed := false }, true, [])
  | _ => (a, false, ["New data must be a list"])

/-- The mutating operations a caller can invoke on a `DataAnalyzer`. -/
inductive Op where
  | processOp
  | getStatisticsOp
  | addDataOp (v : PyValue)

/-- State transition of one method call (`get_statistics` never mutates). -/
def applyOp (a : DataAnalyzer) : Op → DataAnalyzer
  | .processOp => (process a).1
  | .getStatisticsOp => a
  | .addDataOp v => (add_data a v).1

/-- States reachable from some freshly constructed `DataAnalyzer` by any
sequence of method calls. -/
inductive Reachable : DataAnalyzer → Prop
  | init (d : List ℚ) (n : String) : Reachable (DataAnalyzer.init d n)
  | step (a : DataAnalyzer) (op : Op) (h : Reachable a) : Reachable (applyOp a op)

/-! ## Helper lemmas -/

/-- Invariant of all reachable states: whenever `processed` is true, the data
is non-empty and `_stats` holds exactly the statistics of the current data. -/
theorem reachable_invariant (a : DataAnalyzer) (h : Reachable a) :
    a.processed = true → a.data ≠ [] ∧ a.stats = some (statsOf a.data) := by
  induction h with
  | init d n => simp [DataAnalyzer.init]
  | step a op h ih =>
    cases op with
    | processOp =>
      by_cases hd : a.data = []
      · simpa [applyOp, process, hd] using ih
      · intro _
        exact ⟨by simp [applyOp, process, hd], by simp [applyOp, process, hd]⟩
    | getStatisticsOp => simpa [applyOp] using ih
    | addDataOp v =>
      cases v <;> simp [applyOp, add_data] <;> exact ih

/-! ## Claim C1 -/

/-- A concrete reachable state exhibiting a retained stale snapshot:
construct with data `[1]`, call `process()`, then `add_data([])`. -/
def staleState : DataAnalyzer :=
  applyOp (applyOp (DataAnalyzer.init [1] "d") Op.processOp)
    (Op.addDataOp (PyValue.list []))

/-- C1 counterexample: the claim "every addData discards the stale
statistics snapshot, so no state has isComputed false while a snapshot is
still stored" is false on the code: after `process()` and then
`add_data([])`, the state has `processed = false` yet `_stats` is still a
stored snapshot (`add_data` only resets the flag, it never clears
`self._stats`). -/
theorem C1_stale_snapshot_retained :
    Reachable staleState ∧ staleState.processed = false ∧ staleState.stats ≠ none ∧
    staleState.stats = some (statsOf staleState.data) := by
  refine ⟨?_, rfl, ?_, rfl⟩
  · exact Reachable.step _ (Op.addDataOp (PyValue.list []))
      (Reachable.step _ Op.processOp (Reachable.init [1] "d"))
  · have h : staleState.stats = some (statsOf [1]) := rfl
    simp [h]

/-- C1 (amended): every reachable state satisfies the forward invariant —
if `isComputed` (`processed`) is true then the snapshot is present and was
computed from the exact current `values` sequence — and every successful
`addData` sets `isComputed` to false; however the stale snapshot is
retained (not discarded), so a state may have `isComputed = false` while a
snapshot is still stored. -/
theorem C1_processed_invariant (a : DataAnalyzer) (h : Reachable a) :
    (a.processed = true → a.data ≠ [] ∧ a.stats = some (statsOf a.data)) ∧
    ∀ v, (add_data a v).2.1 = true → (add_data a v).1.processed = false := by
  refine ⟨reachable_invariant a h, ?_⟩
  intro v
  cases v <;> simp [add_data]

/-- C1 witness: the invariant instantiated at the concrete reachable state
obtained by constructing with data `[1]` and calling `process()`. -/
theorem C1_processed_invariant_witness :
    ((applyOp (DataAnalyzer.init [1] "d") Op.processOp).processed = true →
      (applyOp (DataAnalyzer.init [1] "d") Op.processOp).data ≠ [] ∧
      (applyOp (DataAnalyzer.init [1] "d") Op.processOp).stats =
        some (statsOf (applyOp (DataAnalyzer.init [1] "d") Op.processOp).data)) ∧
    ∀ v, (add_data (applyOp (DataAnalyzer.init [1] "d") Op.processOp) v).2.1 = true →
      (add_data (applyOp (DataAnalyzer.init [1] "d") Op.processOp) v).1.processed = false :=
  C1_processed_invariant _ (Reachable.step _ Op.processOp (Reachable.init [1] "d"))

/-! ## Claim C2 -/

/-- C2: `process()` fails exactly when the data is empty. On every
non-empty data sequence it returns `True`, sets `processed` and stores a
snapshot whose `count` is the length of the data; on empty data it returns
`False`, prints the diagnostic, leaves `processed` false (it is already
false in every reachable empty-data state) and stores nothing. -/
theorem C2_process_fails_iff_empty (a : DataAnalyzer) (h : Reachable a) :
    (a.data ≠ [] →
      (process a).2.1 = true ∧ (process a).1.processed = true ∧
      ∃ st, (process a).1.stats = some st ∧ st.count = a.data.length) ∧
    (a.data = [] →
      (process a).2.1 = false ∧ (process a).2.2 = ["No data to process"] ∧
      (process a).1.processed = false ∧ (process a).1.stats = a.stats) := by
  constructor
  · intro hd
    exact ⟨by simp [process, hd], by simp [process, hd],
      statsOf a.data, by simp [process, hd], rfl⟩
  · intro hd
    have hp : a.processed = false := by
      cases hb : a.processed
      · rfl
      · exact absurd hd (reachable_invariant a h hb).1
    simp [process, hd, hp]

/-- C2 witness: instantiated at a freshly constructed analyzer with data
`[3]` (non-empty branch) — `process` succeeds and records `count = 1`. -/
theorem C2_process_fails_iff_empty_witness :
    (process (DataAnalyzer.init [3] "d")).2.1 = true ∧
    (process (DataAnalyzer.init [3] "d")).1.processed = true ∧
    ∃ st, (process (DataAnalyzer.init [3] "d")).1.stats = some st ∧ st.count = 1 :=
  (C2_process_fails_iff_empty _ (Reachable.init [3] "d")).1 (by simp [DataAnalyzer.init])

/-! ## Claim C3 -/

/-- C3: on every non-empty data sequence, the median stored by `process()`
is given by the spec's formula over the (unique) sorted permutation of the
data: for even count the average of the entries at positions `n/2 - 1` and
`n/2`, for odd count the entry at position `n/2`; in particular
`[12, 15, 23, 45, 67, 89, 21, 34]` yields median `28.5 = 57/2` and
`[1, 2, 9]` yields median `2`. -/
theorem C3_median_formula (a : DataAnalyzer) (l' : List ℚ) (h1 : a.data ≠ [])
    (h2 : l'.Perm a.data) (h3 : List.Sorted (fun x y : ℚ => x ≤ y) l') :
    (∃ st, (process a).1.stats = some st ∧
      st.median = medianOfSorted l' a.data.length) ∧
    (∃ st, (process (DataAnalyzer.init [12, 15, 23, 45, 67, 89, 21, 34] "Sample Dataset")).1.stats
        = some st ∧ st.median = 57 / 2) ∧
    (∃ st, (process (DataAnalyzer.init [1, 2, 9] "d")).1.stats = some st ∧ st.median = 2) := by
  refine ⟨⟨statsOf a.data, by simp [process, h1], ?_⟩, ?_, ?_⟩
  · have hl : l' = List.insertionSort (fun x y : ℚ => x ≤ y) a.data :=
      List.eq_of_perm_of_sorted (h2.trans (List.perm_insertionSort _ a.data).symm) h3
        (List.sorted_insertionSort _ a.data)
    rw [hl]
    rfl
  · refine ⟨statsOf [12, 15, 23, 45, 67, 89, 21, 34], by simp [process, DataAnalyzer.init], ?_⟩
    norm_num [statsOf, medianOfSorted, List.insertionSort, List.orderedInsert]
  · refine ⟨statsOf [1, 2, 9], by simp [process, DataAnalyzer.init], ?_⟩
    norm_num [statsOf, medianOfSorted, List.insertionSort, List.orderedInsert]

/-- C3 witness: instantiated at the concrete data `[1, 2, 9]` with its
sorted permutation `[1, 2, 9]`; the stored median is the middle element. -/
theorem C3_median_formula_witness :
    (∃ st, (process (DataAnalyzer.init [1, 2, 9] "w")).1.stats = some st ∧
      st.median = medianOfSorted [1, 2, 9] 3) ∧
    (∃ st, (process (DataAnalyzer.init [12, 15, 23, 45, 67, 89, 21, 34] "Sample Dataset")).1.stats
        = some st ∧ st.median = 57 / 2) ∧
    (∃ st, (process (DataAnalyzer.init [1, 2, 9] "d")).1.stats = some st ∧ st.median = 2) :=
  C3_median_formula (DataAnalyzer.init [1, 2, 9] "w") [1, 2, 9]
    (by simp [DataAnalyzer.init]) (List.Perm.refl _) (by decide)

/-! ## Helper lemmas for min/max/median bounds -/

theorem foldl_min_le_init (xs : List ℚ) (x : ℚ) : xs.foldl min x ≤ x := by
  induction xs generalizing x with
  | nil => exact le_refl x
  | cons a as ih => exact le_trans (ih (min x a)) (min_le_left x a)

theorem foldl_min_le_mem (xs : List ℚ) (x y : ℚ) (hy : y ∈ xs) : xs.foldl min x ≤ y := by
  induction xs generalizing x with
  | nil => cases hy
  | cons a as ih =>
    rcases List.mem_cons.mp hy with h | h
    · subst h
      exact le_trans (foldl_min_le_init as (min x y)) (min_le_right x y)
    · exact ih (min x a) h

theorem foldl_min_mem (xs : List ℚ) (x : ℚ) : xs.foldl min x ∈ x :: xs := by
  induction xs generalizing x with
  | nil => exact List.mem_singleton.mpr rfl
  | cons a as ih =>
    rw [List.foldl_cons]
    rcases List.mem_cons.mp (ih (min x a)) with h1 | h1
    · rcases min_choice x a with hm | hm
      · rw [h1, hm]; exact List.mem_cons_self _ _
      · rw [h1, hm]; exact List.mem_cons.mpr (Or.inr (List.mem_cons_self _ _))
    · exact List.mem_cons.mpr (Or.inr (List.mem_cons.mpr (Or.inr h1)))

theorem init_le_foldl_max (xs : List ℚ) (x : ℚ) : x ≤ xs.foldl max x := by
  induction xs generalizing x with
  | nil => exact le_refl x
  | cons a as ih => exact le_trans (le_max_left x a) (ih (max x a))

theorem mem_le_foldl_max (xs : List ℚ) (x y : ℚ) (hy : y ∈ xs) : y ≤ xs.foldl max x := by
  induction xs generalizing x with
  | nil => cases hy
  | cons a as ih =>
    rcases List.mem_cons.mp hy with h | h
    · subst h
      exact le_trans (le_max_right x y) (init_le_foldl_max as (max x y))
    · exact ih (max x a) h

theorem foldl_max_mem (xs : List ℚ) (x : ℚ) : xs.foldl max x ∈ x :: xs := by
  induction xs generalizing x with
  | nil => exact List.mem_singleton.mpr rfl
  | cons a as ih =>
    rw [List.foldl_cons]
    rcases List.mem_cons.mp (ih (max x a)) with h1 | h1
    · rcases max_choice x a with hm | hm
      · rw [h1, hm]; exact List.mem_cons_self _ _
      · rw [h1, hm]; exact List.mem_cons.mpr (Or.inr (List.mem_cons_self _ _))
    · exact List.mem_cons.mpr (Or.inr (List.mem_cons.mpr (Or.inr h1)))

/-- `pyMin d` is a lower bound of every element of `d`. -/
theorem pyMin_le (d : List ℚ) (y : ℚ) (hy : y ∈ d) : pyMin d ≤ y := by
  cases d with
  | nil => cases hy
  | cons x xs =>
    rcases List.mem_cons.mp hy with h | h
    · subst h; exact foldl_min_le_init xs y
    · exact foldl_min_le_mem xs x y h

/-- `pyMax d` is an upper bound of every element of `d`. -/
theorem le_pyMax (d : List ℚ) (y : ℚ) (hy : y ∈ d) : y ≤ pyMax d := by
  cases d with
  | nil => cases hy
  | cons x xs =>
    rcases List.mem_cons.mp hy with h | h
    · subst h; exact init_le_foldl_max xs y
    · exact mem_le_foldl_max xs x y h

/-- On non-empty data, `pyMin` is attained. -/
theorem pyMin_mem (d : List ℚ) (hd : d ≠ []) : pyMin d ∈ d := by
  cases d with
  | nil => exact absurd rfl hd
  | cons x xs => exact foldl_min_mem xs x

/-- On non-empty data, `pyMax` is attained. -/
theorem pyMax_mem (d : List ℚ) (hd : d ≠ []) : pyMax d ∈ d := by
  cases d with
  | nil => exact absurd rfl hd
  | cons x xs => exact foldl_max_mem xs x

/-- Both median positions are occupied by elements of the data, so the
median of `statsOf` lies between `pyMin` and `pyMax`. -/
theorem statsOf_min_le_median_le_max (d : List ℚ) (hd : d ≠ []) :
    (statsOf d).min ≤ (statsOf d).median ∧ (statsOf d).median ≤ (statsOf d).max := by
  have hn : 0 < d.length := List.length_pos.mpr hd
  have hlen : (List.insertionSort (fun a b : ℚ => a ≤ b) d).length = d.length :=
    (List.perm_insertionSort _ d).length_eq
  have hmem : ∀ i, i < d.length →
      (List.insertionSort (fun a b : ℚ => a ≤ b) d).getD i 0 ∈ d := by
    intro i hi
    have hi2 : i < (List.insertionSort (fun a b : ℚ => a ≤ b) d).length := by
      rw [hlen]; exact hi
    rw [List.getD_eq_getElem _ 0 hi2]
    exact (List.perm_insertionSort _ d).mem_iff.mp (List.getElem_mem hi2)
  show pyMin d ≤ medianOfSorted (List.insertionSort (fun a b : ℚ => a ≤ b) d) d.length ∧
    medianOfSorted (List.insertionSort (fun a b : ℚ => a ≤ b) d) d.length ≤ pyMax d
  unfold medianOfSorted
  have h2 : d.length / 2 < d.length := Nat.div_lt_self hn one_lt_two
  have h1 : d.length / 2 - 1 < d.length := lt_of_le_of_lt (Nat.sub_le _ _) h2
  by_cases hpar : d.length % 2 = 0
  · rw [if_pos hpar]
    have a1 := pyMin_le d _ (hmem _ h1)
    have a2 := pyMin_le d _ (hmem _ h2)
    have b1 := le_pyMax d _ (hmem _ h1)
    have b2 := le_pyMax d _ (hmem _ h2)
    constructor <;> linarith
  · rw [if_neg hpar]
    exact ⟨pyMin_le d _ (hmem _ h2), le_pyMax d _ (hmem _ h2)⟩

/-! ## Claim C4 -/

/-- C4: after a successful `process()` on non-empty data, the stored
snapshot satisfies `min ≤ median ≤ max`, where `min` and `max` are the
extremal values of the data (attained lower and upper bounds). -/
theorem C4_min_le_median_le_max (a : DataAnalyzer) (h : a.data ≠ []) :
    ∃ st, (process a).1.stats = some st ∧
      st.min ≤ st.median ∧ st.median ≤ st.max ∧
      st.min ∈ a.data ∧ st.max ∈ a.data ∧
      ∀ y ∈ a.data, st.min ≤ y ∧ y ≤ st.max := by
  obtain ⟨hm1, hm2⟩ := statsOf_min_le_median_le_max a.data h
  exact ⟨statsOf a.data, by simp [process, h], hm1, hm2, pyMin_mem a.data h,
    pyMax_mem a.data h, fun y hy => ⟨pyMin_le a.data y hy, le_pyMax a.data y hy⟩⟩

/-- C4 witness: instantiated at the concrete data `[5, 1, 4]`. -/
theorem C4_min_le_median_le_max_witness :
    ∃ st, (process (DataAnalyzer.init [5, 1, 4] "d")).1.stats = some st ∧
      st.min ≤ st.median ∧ st.median ≤ st.max ∧
      st.min ∈ ([5, 1, 4] : List ℚ) ∧ st.max ∈ ([5, 1, 4] : List ℚ) ∧
      ∀ y ∈ ([5, 1, 4] : List ℚ), st.min ≤ y ∧ y ≤ st.max :=
  C4_min_le_median_le_max (DataAnalyzer.init [5, 1, 4] "d") (by simp [DataAnalyzer.init])

/-! ## Claim C5 -/

/-- C5: `get_statistics()` returns `None` plus the "call process() first"
diagnostic whenever `processed` is false — on a freshly constructed
analyzer and after any `add_data` invalidation, even with an empty
appended list — and returns the current snapshot with no diagnostic when
`processed` is true. As the operation never mutates state, it keeps
failing until `process()` is called again. -/
theorem C5_get_statistics_gated (a : DataAnalyzer) :
    (a.processed = false → get_statistics a = (none, [notProcessedMsg])) ∧
    (a.processed = true → get_statistics a = (a.stats, [])) ∧
    (∀ xs : List ℚ, (add_data a (PyValue.list xs)).1.processed = false ∧
      get_statistics (add_data a (PyValue.list xs)).1 = (none, [notProcessedMsg])) ∧
    (∀ d : List ℚ, ∀ n : String,
      get_statistics (DataAnalyzer.init d n) = (none, [notProcessedMsg])) := by
  refine ⟨?_, ?_, ?_, ?_⟩
  · intro h; simp [get_statistics, h]
  · intro h; simp [get_statistics, h]
  · intro xs
    exact ⟨by simp [add_data], by simp [get_statistics, add_data]⟩
  · intro d n; simp [get_statistics, DataAnalyzer.init]

/-- C5 witness: after construct-with-`[1]`, `process()`, then
`add_data([2])`, the getter returns `None` with the diagnostic. -/
theorem C5_get_statistics_gated_witness :
    get_statistics
      (add_data (applyOp (DataAnalyzer.init [1] "d") Op.processOp) (PyValue.list [2])).1
      = (none, [notProcessedMsg]) :=
  ((C5_get_statistics_gated (applyOp (DataAnalyzer.init [1] "d") Op.processOp)).2.2.1 [2]).2

/-! ## Claim C6 -/

/-- C6: for every non-list argument, `add_data` returns `False`, prints
the diagnostic, and leaves the whole state — data, `processed` flag and
cached snapshot — exactly unchanged. -/
theorem C6_add_data_rejects_nonlist (a : DataAnalyzer) (v : PyValue)
    (h : v.isList = false) :
    (add_data a v).1 = a ∧ (add_data a v).2.1 = false ∧
    (add_data a v).2.2 = ["New data must be a list"] ∧
    (add_data a v).1.data = a.data ∧ (add_data a v).1.processed = a.processed ∧
    (add_data a v).1.stats = a.stats := by
  cases v with
  | list xs => simp [PyValue.isList] at h
  | tuple xs => simp [add_data]
  | range lo hi => simp [add_data]
  | int n => simp [add_data]
  | str s => simp [add_data]

/-- C6 witness: `add_data(42)` on an analyzer holding `[1, 2]` fails and
leaves the state untouched (the spec's InvalidInputShape example). -/
theorem C6_add_data_rejects_nonlist_witness :
    (add_data (DataAnalyzer.init [1, 2] "d") (PyValue.int 42)).1 = DataAnalyzer.init [1, 2] "d" ∧
    (add_data (DataAnalyzer.init [1, 2] "d") (PyValue.int 42)).2.1 = false ∧
    (add_data (DataAnalyzer.init [1, 2] "d") (PyValue.int 42)).2.2 = ["New data must be a list"] ∧
    (add_data (DataAnalyzer.init [1, 2] "d") (PyValue.int 42)).1.data
      = (DataAnalyzer.init [1, 2] "d").data ∧
    (add_data (DataAnalyzer.init [1, 2] "d") (PyValue.int 42)).1.processed
      = (DataAnalyzer.init [1, 2] "d").processed ∧
    (add_data (DataAnalyzer.init [1, 2] "d") (PyValue.int 42)).1.stats
      = (DataAnalyzer.init [1, 2] "d").stats :=
  C6_add_data_rejects_nonlist (DataAnalyzer.init [1, 2] "d") (PyValue.int 42) rfl

/-! ## Claim C7 -/

/-- C7: for every list argument, `add_data` succeeds: the new data is the
old data followed by all appended elements in order, `processed` is reset
to false, the label is untouched, and no diagnostic is printed. -/
theorem C7_add_data_appends (a : DataAnalyzer) (xs : List ℚ) :
    (add_data a (PyValue.list xs)).2.1 = true ∧
    (add_data a (PyValue.list xs)).1.data = a.data ++ xs ∧
    (add_data a (PyValue.list xs)).1.processed = false ∧
    (add_data a (PyValue.list xs)).1.name = a.name ∧
    (add_data a (PyValue.list xs)).2.2 = [] := by
  simp [add_data]

/-! ## Claim C8 -/

/-- C8: `process()` is idempotent — a second call with no intervening
mutation leaves the state exactly as after the first call, stores an
identical snapshot, and returns the same result and diagnostics. -/
theorem C8_process_idempotent (a : DataAnalyzer) :
    (process (process a).1).1 = (process a).1 ∧
    (process (process a).1).1.stats = (process a).1.stats ∧
    (process (process a).1).2 = (process a).2 := by
  by_cases hd : a.data = [] <;> simp [process, hd]

/-! ## Claim C9 -/

/-- C9: frame property of `process()` — the data sequence (contents and
order) and the label are left unchanged (the median works on a sorted
copy), and the only possible output is the empty-data diagnostic. -/
theorem C9_process_frame (a : DataAnalyzer) :
    (process a).1.data = a.data ∧ (process a).1.name = a.name ∧
    ((process a).2.2 = [] ∨ (process a).2.2 = ["No data to process"]) := by
  by_cases hd : a.data = [] <;> simp [process, hd]

/-! ## Claim C10 -/

/-- C10: `add_data` accepts exactly the arguments built by the `list`
constructor; every other runtime value — including sequence-like tuples
and ranges — is rejected with the state left unchanged. -/
theorem C10_add_data_accepts_only_lists (a : DataAnalyzer) (v : PyValue) :
    ((add_data a v).2.1 = true ↔ ∃ xs, v = PyValue.list xs) ∧
    (v.isList = false → (add_data a v).1 = a) ∧
    (∀ xs, (add_data a (PyValue.tuple xs)).2.1 = false ∧
      (add_data a (PyValue.tuple xs)).1 = a) ∧
    (∀ lo hi, (add_data a (PyValue.range lo hi)).2.1 = false ∧
      (add_data a (PyValue.range lo hi)).1 = a) := by
  refine ⟨?_, ?_, fun xs => ⟨rfl, rfl⟩, fun lo hi => ⟨rfl, rfl⟩⟩
  · cases v <;> simp [add_data]
  · intro h
    cases v with
    | list xs => simp [PyValue.isList] at h
    | tuple xs => rfl
    | range lo hi => rfl
    | int n => rfl
    | str s => rfl

/-- C10 witness: a tuple argument — an appendable sequence that is not a
list — is rejected and the state is unchanged. -/
theorem C10_add_data_accepts_only_lists_witness :
    (add_data (DataAnalyzer.init [7] "d") (PyValue.tuple [1, 2])).1 = DataAnalyzer.init [7] "d" :=
  (C10_add_data_accepts_only_lists (DataAnalyzer.init [7] "d") (PyValue.tuple [1, 2])).2.1 rfl
